import Mathlib

/-!
Shallow embedding of the decode-and-transcode pipeline of
`src/tools/score2bas.py` (NovaVM repository): the MIDI binary decoder
(`parse_midi` and its helpers), the voice/channel selector
(`parse_channel_list`, `choose_voice_channels`), the monophonic reducer
(`select_monophonic_onsets`), and the row-producing part of the scheduler
(`emit_basic` lines 372-426 plus the sentinel row).  Byte buffers are
`List Nat` (each entry one byte), Python dicts are insertion-ordered
association lists, Python sets are duplicate-free lists consumed only
through sorting, and fallible code returns `Except String`.  The BASIC
program text around the DATA rows (REM headers, player loop source lines)
is not modelled: the claims under study concern the decoded song and the
row sequence only.
-/

deriving instance DecidableEq for Except

namespace NovaVM

/-- Mirrors the frozen dataclass `TempoEvent` of score2bas.py. -/
structure TempoEvent where
  tick : Nat
  bpm : Nat
deriving Repr, DecidableEq

instance : Inhabited TempoEvent := ⟨⟨0, 120⟩⟩

/-- Mirrors the frozen dataclass `TimeSignature` of score2bas.py. -/
structure TimeSignature where
  numerator : Nat
  denominator : Nat
deriving Repr, DecidableEq

/-- Mirrors the frozen dataclass `NoteEvent` of score2bas.py. -/
structure NoteEvent where
  start_tick : Nat
  end_tick : Nat
  channel : Nat
  note : Nat
  velocity : Nat
deriving Repr, DecidableEq

/-- Mirrors the frozen dataclass `MidiSong` of score2bas.py. -/
structure MidiSong where
  ppqn : Nat
  notes : List NoteEvent
  tempos : List TempoEvent
  time_signature : TimeSignature
  end_tick : Nat
deriving Repr, DecidableEq

/-- Round-half-to-even of the quotient `a / b` (for `b > 0`).  Models the
Python expression `int(round(a / b))`: CPython float division followed by
`round`, which rounds halves to even.  On the concrete values appearing in
this development the float quotient rounds exactly like the rational one. -/
def py_round_div (a b : Nat) : Nat :=
  let q := a / b
  let r := a % b
  if 2 * r < b then q
  else if b < 2 * r then q + 1
  else if q % 2 = 0 then q else q + 1

/-- Scaled equal-tempered semitone ratios `2 ^ (r / 12) * 10 ^ 15`
(rounded), for `r = 0, 1, ..., 11`: used to evaluate `midi_note_to_freq`
exactly in integer arithmetic. -/
def SEMITONE_SCALED : List Nat :=
  [1000000000000000, 1059463094359295, 1122462048309373, 1189207115002721,
   1259921049894873, 1334839854170034, 1414213562373095, 1498307076876681,
   1587401051968199, 1681792830507429, 1781797436280679, 1887748625363387]

/-- Models `midi_note_to_freq`:
`int(round(440.0 * (2.0 ** ((note - 69) / 12.0))))`.
The irrational `2 ^ (r/12)` is replaced by its 16-significant-digit
rational approximation from `SEMITONE_SCALED` and the float `round` by
round-half-to-even on the exact quotient; on the MIDI note range the float
computation never lands near a rounding boundary, so the values agree. -/
def midi_note_to_freq (note : Nat) : Nat :=
  if 69 ≤ note then
    let d := note - 69
    let q := d / 12
    let c := SEMITONE_SCALED.getD (d % 12) 0
    py_round_div (440 * 2 ^ q * c) 1000000000000000
  else
    let d := 69 - note
    let k := (d + 11) / 12
    let c := SEMITONE_SCALED.getD ((12 - d % 12) % 12) 0
    py_round_div (440 * c) (1000000000000000 * 2 ^ k)

/-- Models `read_vlq(data, offset)`: big-endian 7-bits-per-byte quantity;
the buffer from `offset` on is the list argument, and the returned offset
is the remaining list.  `value` is the accumulator (0 at the entry point). -/
def read_vlq (value : Nat) : List Nat → Except String (Nat × List Nat)
  | [] => .error "Unexpected EOF while reading VLQ"
  | b :: rest =>
    let value := (value <<< 7) ||| (b &&& 0x7F)
    if b &&& 0x80 = 0 then .ok (value, rest) else read_vlq value rest

/-- The per-track `active` map of `parse_midi`: a Python
`defaultdict[(channel, note), list[(tick, velocity)]]`, modelled as an
insertion-ordered association list.  Stacks are kept oldest-first, so
`list.append` adds at the tail and `list.pop` removes the tail. -/
abbrev ActiveMap := List ((Nat × Nat) × List (Nat × Nat))

/-- Python `dict.get` on an insertion-ordered association list. -/
def alGet {α : Type} (m : List ((Nat × Nat) × α)) (k : Nat × Nat) : Option α :=
  match m with
  | [] => none
  | (k', v) :: rest => if k' = k then some v else alGet rest k

/-- Models `active[key].append(e)` on a defaultdict: a fresh key is inserted
at the end of the dict order with a singleton stack. -/
def alPush (m : ActiveMap) (k : Nat × Nat) (e : Nat × Nat) : ActiveMap :=
  match m with
  | [] => [(k, [e])]
  | (k', v) :: rest => if k' = k then (k', v ++ [e]) :: rest else (k', v) :: alPush rest k e

/-- Models `active[key].pop()`'s effect on the map: the last entry of the
stack is removed and the (possibly now empty) stack stays in the dict. -/
def alPop (m : ActiveMap) (k : Nat × Nat) : ActiveMap :=
  match m with
  | [] => []
  | (k', v) :: rest => if k' = k then (k', v.dropLast) :: rest else (k', v) :: alPop rest k

/-- Models lines 200-216 of `parse_midi`: the note-on / note-off lifecycle
for one channel event with two data bytes.  Any other `event_type`
(aftertouch, controller, pitch bend) leaves the state unchanged, exactly as
the Python code falls through both branches. -/
def handleNote (event_type channel data1 data2 tick : Nat)
    (active : ActiveMap) (notes : List NoteEvent) : ActiveMap × List NoteEvent :=
  let key := (channel, data1)
  if event_type = 0x90 ∧ 0 < data2 then
    (alPush active key (tick, data2), notes)
  else if event_type = 0x80 ∨ (event_type = 0x90 ∧ data2 = 0) then
    match alGet active key with
    | none => (active, notes)
    | some [] => (active, notes)
    | some (s :: stack) =>
      let last := (s :: stack).getLast (by simp)
      let start_tick := last.1
      let velocity := last.2
      let active := alPop active key
      if start_tick < tick then
        (active, notes ++ [⟨start_tick, tick, channel, data1, velocity⟩])
      else (active, notes)
  else (active, notes)

/-- The 24-bit big-endian microseconds-per-quarter value of a type 0x51
meta event: `(meta_data[0] << 16) | (meta_data[1] << 8) | meta_data[2]`.
Indexing is total via `getD`; the caller guards `len(meta_data) == 3`. -/
def metaUs (meta_data : List Nat) : Nat :=
  ((meta_data.getD 0 0) <<< 16) ||| ((meta_data.getD 1 0) <<< 8) ||| meta_data.getD 2 0

/-- Models lines 165-169 of `parse_midi`: the action of a type 0x51 meta
event with a 3-byte payload on the accumulated tempo list.  The division
`60000000 / us` is evaluated only under the `us > 0` guard. -/
def meta51 (tick : Nat) (meta_data : List Nat) (tempos : List TempoEvent) : List TempoEvent :=
  let us := metaUs meta_data
  if 0 < us then tempos ++ [⟨tick, max 1 (py_round_div 60000000 us)⟩] else tempos

/-- Models lines 170-174 of `parse_midi`: the action of a type 0x58 meta
event with a payload of at least 2 bytes on the current time signature. -/
def meta58 (meta_data : List Nat) (ts : TimeSignature) : TimeSignature :=
  let numerator := max 1 (meta_data.getD 0 0)
  let denominator := 2 ^ meta_data.getD 1 0
  if 0 < denominator then ⟨numerator, denominator⟩ else ts

/-- The state shared across tracks in `parse_midi`: the growing `notes` and
`tempos` lists and the current `time_signature` (initially 4/4). -/
structure TrackAcc where
  notes : List NoteEvent
  tempos : List TempoEvent
  time_signature : TimeSignature
deriving Repr, DecidableEq

/-- Outcome of one iteration of the per-track event loop: the loop ends
normally (`done`, covering both `pos >= len(track)` and the 0x2F break),
fails (`err`), or continues with updated state (`next`). -/
inductive StepRes where
  | done (tick : Nat) (active : ActiveMap) (acc : TrackAcc)
  | err (e : String)
  | next (rest : List Nat) (tick : Nat) (running : Option Nat)
      (active : ActiveMap) (acc : TrackAcc)

/-- Models lines 146-154 of `parse_midi`: determine the event's status
byte.  A byte with its high bit set is a new status (consumed, and
remembered as running status when below 0xF0); otherwise the previous
running status is reused and the byte is the first data byte, or `none`
when no running status exists yet. -/
def statusOf (b : Nat) (rest2 : List Nat) (running : Option Nat) :
    Option (Nat × List Nat × Option Nat) :=
  if 0x80 ≤ b then some (b, rest2, if b < 0xF0 then some b else running)
  else
    match running with
    | none => none
    | some s => some (s, b :: rest2, running)

/-- Models one iteration of the per-track `while pos < len(track)` event
loop of `parse_midi` (lines 139-216).  `rest` is `track[pos:]`; `tick`,
`running` and `active` are the loop's mutable state. -/
def trackStep (rest : List Nat) (tick : Nat) (running : Option Nat)
    (active : ActiveMap) (acc : TrackAcc) : StepRes :=
  match rest with
  | [] => .done tick active acc
  | _ :: _ =>
    match read_vlq 0 rest with
    | .error e => .err e
    | .ok (delta, rest1) =>
      let tick := tick + delta
      match rest1 with
      | [] => .done tick active acc
      | b :: rest2 =>
        match statusOf b rest2 running with
        | none => .err "Running status used before status byte"
        | some (status, drest, running) =>
          if status = 0xFF then
            match drest with
            | [] => .err "Malformed meta event"
            | meta_type :: mrest =>
              match read_vlq 0 mrest with
              | .error e => .err e
              | .ok (meta_len, mrest2) =>
                let meta_data := mrest2.take meta_len
                let rest' := mrest2.drop meta_len
                if meta_type = 0x51 ∧ meta_data.length = 3 then
                  .next rest' tick running active
                    { acc with tempos := meta51 tick meta_data acc.tempos }
                else if meta_type = 0x58 ∧ 2 ≤ meta_data.length then
                  .next rest' tick running active
                    { acc with time_signature := meta58 meta_data acc.time_signature }
                else if meta_type = 0x2F then .done tick active acc
                else .next rest' tick running active acc
          else if status = 0xF0 ∨ status = 0xF7 then
            match read_vlq 0 drest with
            | .error e => .err e
            | .ok (sysex_len, srest) =>
              .next (srest.drop sysex_len) tick running active acc
          else
            let event_type := status &&& 0xF0
            let channel := status &&& 0x0F
            if event_type = 0xC0 ∨ event_type = 0xD0 then
              match drest with
              | [] => .err "Malformed MIDI event"
              | _ :: drest' => .next drest' tick running active acc
            else
              match drest with
              | data1 :: data2 :: drest' =>
                let an := handleNote event_type channel data1 data2 tick active acc.notes
                .next drest' tick running an.1 { acc with notes := an.2 }
              | _ => .err "Malformed MIDI event"

/-- The per-track event loop: iterate `trackStep` until it ends or fails.
Every iteration consumes at least one byte, so recursion is driven by a
fuel counter that `trackLoop` seeds with more fuel than there are bytes;
`trackLoopF_fuel_irrelevant` below shows the fuel bound is never hit from
that entry point. -/
def trackLoopF (fuel : Nat) (rest : List Nat) (tick : Nat) (running : Option Nat)
    (active : ActiveMap) (acc : TrackAcc) : Except String (Nat × ActiveMap × TrackAcc) :=
  match fuel with
  | 0 => .error "out of fuel"
  | fuel + 1 =>
    match trackStep rest tick running active acc with
    | .done t a c => .ok (t, a, c)
    | .err e => .error e
    | .next rest' t r a c => trackLoopF fuel rest' t r a c

/-- Entry point for one track body, matching the source's initial state:
`running_status = None`, `pos = 0`, `tick = 0`, empty `active` map. -/
def trackLoop (track : List Nat) (acc : TrackAcc) :
    Except String (Nat × ActiveMap × TrackAcc) :=
  trackLoopF (track.length + 1) track 0 none [] acc

/-- Models lines 218-229 of `parse_midi`: at track end, every still-open
entry is force-closed at the final tick, in dict insertion order and
oldest-first within a stack, under the same positive-duration rule. -/
def forceClose (tick : Nat) (active : ActiveMap) (notes : List NoteEvent) : List NoteEvent :=
  active.foldl
    (fun ns entry =>
      entry.2.foldl
        (fun ns sv =>
          if sv.1 < tick then
            ns ++ [⟨sv.1, tick, entry.1.1, entry.1.2, sv.2⟩]
          else ns)
        ns)
    notes

/-- Python `dict[k] = v`: update in place if the key exists, else append at
the end of the insertion order. -/
def dictInsert (m : List (Nat × Nat)) (k v : Nat) : List (Nat × Nat) :=
  match m with
  | [] => [(k, v)]
  | (k', v') :: rest => if k' = k then (k, v) :: rest else (k', v') :: dictInsert rest k v

/-- Association-list lookup with `Nat` keys (Python `k in d` / `d[k]`). -/
def alookup {α : Type} (m : List (Nat × α)) (k : Nat) : Option α :=
  match m with
  | [] => none
  | (k', v) :: rest => if k' = k then some v else alookup rest k

/-- Stable insertion of `x` into a list sorted by the boolean relation
`le`: `x` goes before the first element `y` with `le x y`. -/
def insertByKey {α : Type} (le : α → α → Bool) (x : α) : List α → List α
  | [] => [x]
  | y :: ys => if le x y then x :: y :: ys else y :: insertByKey le x ys

/-- Stable sort by the boolean relation `le` (a reflexive total preorder),
modelling Python's stable `sorted`. -/
def sortByKey {α : Type} (le : α → α → Bool) (xs : List α) : List α :=
  xs.foldr (insertByKey le) []

/-- Lexicographic `≤` on pairs of naturals, as a boolean (the order Python
`sorted` uses on `(tick, bpm)` tuples). -/
def pairLE (a b : Nat × Nat) : Bool :=
  decide (a.1 < b.1) || (decide (a.1 = b.1) && decide (a.2 ≤ b.2))

/-- Models lines 236-240 of `parse_midi`: keep the last tempo for each
tick, then sort ascending. -/
def dedupSortTempos (tempos : List TempoEvent) : List TempoEvent :=
  let dict := tempos.foldl (fun m t => dictInsert m t.tick t.bpm) []
  (sortByKey pairLE dict).map fun p => ⟨p.1, p.2⟩

/-- `struct.unpack_from(">I", data, off)` with `data[off:]` as the list:
a 32-bit big-endian read that raises `struct.error` (an uncaught
exception, distinct from `MidiParseError`) if fewer than 4 bytes remain. -/
def readU32 (l : List Nat) : Except String Nat :=
  match l with
  | a :: b :: c :: d :: _ => .ok ((a <<< 24) ||| (b <<< 16) ||| (c <<< 8) ||| d)
  | _ => .error "struct.error: unpack_from requires at least 4 bytes"

/-- `struct.unpack_from(">HHH", data, off)`: three 16-bit big-endian
values, raising `struct.error` if fewer than 6 bytes remain. -/
def readU16x3 (l : List Nat) : Except String (Nat × Nat × Nat) :=
  match l with
  | a :: b :: c :: d :: e :: f :: _ =>
    .ok ((a <<< 8) ||| b, (c <<< 8) ||| d, (e <<< 8) ||| f)
  | _ => .error "struct.error: unpack_from requires at least 6 bytes"

/-- Models the `for _track_index in range(track_count)` loop of
`parse_midi` (lines 125-231): check the `MTrk` magic, slice off the
declared track length (Python slicing silently clamps an over-long
declared length to the remaining bytes), run the event loop, force-close
open notes, and take the running maximum end tick. -/
def parseTracks : Nat → List Nat → Nat → TrackAcc → Except String (Nat × TrackAcc)
  | 0, _, song_end, acc => .ok (song_end, acc)
  | n + 1, rest, song_end, acc =>
    if rest.take 4 = [0x4D, 0x54, 0x72, 0x6B] then
      match readU32 (rest.drop 4) with
      | .error e => .error e
      | .ok track_len =>
        let body := (rest.drop 8).take track_len
        let rest' := (rest.drop 8).drop track_len
        match trackLoop body acc with
        | .error e => .error e
        | .ok (tick, active, acc') =>
          let notes := forceClose tick active acc'.notes
          parseTracks n rest' (max song_end tick) { acc' with notes := notes }
    else .error "Missing MTrk header"

/-- Models `parse_midi` on an in-memory byte buffer (the
`path.read_bytes()` I/O is the collaborator's job).  Header validation,
track decoding, the synthesized default tempo, and the last-wins tempo
dedup follow lines 97-248 of the source. -/
def parse_midi (data : List Nat) : Except String MidiSong :=
  if data.take 4 ≠ [0x4D, 0x54, 0x68, 0x64] then .error "Missing MThd header"
  else
    match readU32 (data.drop 4) with
    | .error e => .error e
    | .ok header_len =>
      if header_len < 6 then .error "Invalid MIDI header length"
      else
        match readU16x3 (data.drop 8) with
        | .error e => .error e
        | .ok (_fmt, track_count, division) =>
          let rest := (data.drop 8).drop header_len
          if division &&& 0x8000 ≠ 0 then .error "SMPTE timing MIDI is not supported"
          else if division = 0 then .error "Invalid PPQN"
          else
            match parseTracks track_count rest 0 ⟨[], [], ⟨4, 4⟩⟩ with
            | .error e => .error e
            | .ok (song_end, acc) =>
              let tempos := if acc.tempos = [] then [⟨0, 120⟩] else acc.tempos
              .ok ⟨division, acc.notes, dedupSortTempos tempos, acc.time_signature, song_end⟩

/-- Python `raw.split(",")` on the character list of the string: commas
separate groups, empty groups included. -/
def splitComma : List Char → List (List Char)
  | [] => [[]]
  | c :: rest =>
    let r := splitComma rest
    if c = ',' then [] :: r
    else
      match r with
      | [] => [[c]]
      | g :: gs => (c :: g) :: gs

/-- The whitespace characters Python `str.strip()` removes (ASCII). -/
def pyIsSpace (c : Char) : Bool :=
  c = ' ' || c = '\t' || c = '\n' || c = '\x0b' || c = '\x0c' || c = '\r'

/-- Python `part.strip()`: drop whitespace from both ends. -/
def pyStrip (l : List Char) : List Char :=
  ((l.dropWhile pyIsSpace).reverse.dropWhile pyIsSpace).reverse

/-- A non-empty all-digit character run as a natural number. -/
def digitsToNat : List Char → Option Nat
  | [] => none
  | l =>
    l.foldl
      (fun acc c =>
        match acc with
        | none => none
        | some n => if c.isDigit then some (n * 10 + (c.toNat - 48)) else none)
      (some 0)

/-- Python `int(token)` on a stripped token: an optional sign followed by
decimal digits.  (Python additionally accepts underscores between digits;
no caller-supplied channel list needs them.) -/
def pyInt (l : List Char) : Option Int :=
  match l with
  | '-' :: rest => (digitsToNat rest).map fun n => -(n : Int)
  | '+' :: rest => (digitsToNat rest).map fun n => (n : Int)
  | _ => (digitsToNat l).map fun n => (n : Int)

/-- Models `parse_channel_list`: split the raw option on commas, strip
each token, skip empty tokens, parse the rest as integers, require the
range 1-16, and normalize to 0-based.  An empty result (or no option at
all) is `none`. -/
def parse_channel_list (raw : Option String) : Except String (Option (List Nat)) :=
  match raw with
  | none => .ok none
  | some raw =>
    let step := fun (acc : Except String (List Nat)) (part : List Char) =>
      match acc with
      | .error e => .error e
      | .ok channels =>
        let token := pyStrip part
        if token = [] then .ok channels
        else
          match pyInt token with
          | none =>
            .error ("Invalid channel '" ++ String.mk token ++ "', expected integers 1-16")
          | some value =>
            if 1 ≤ value ∧ value ≤ 16 then .ok (channels ++ [(value - 1).toNat])
            else .error ("Invalid channel '" ++ String.mk token ++ "', expected range 1-16")
    match (splitComma raw.data).foldl step (.ok []) with
    | .error e => .error e
    | .ok [] => .ok none
    | .ok channels => .ok (some channels)

/-- Boolean comparator realizing the sort key
`lambda kv: (-kv[1], kv[0])` on `(channel, count)` pairs: descending count,
ascending channel. -/
def rankLE (a b : Nat × Nat) : Bool :=
  decide (b.2 < a.2) || (decide (a.2 = b.2) && decide (a.1 ≤ b.1))

/-- Models `choose_voice_channels`.  The explicit branch is taken exactly
when the Python list is truthy (present and non-empty); both branches pad
with unused channels `0..15` in ascending order. -/
def choose_voice_channels (notes : List NoteEvent) (voices : Nat)
    (explicit : Option (List Nat)) : List Nat :=
  match explicit with
  | some (e :: es) =>
    let chosen := (e :: es).take voices
    if chosen.length < voices then
      let remaining := (List.range 16).filter (fun ch => ch ∉ chosen)
      chosen ++ remaining.take (voices - chosen.length)
    else chosen
  | _ =>
    let present := (notes.map (fun n => n.channel)).dedup
    let counts := present.map fun ch => (ch, (notes.filter (fun n => n.channel = ch)).length)
    let ranked := (sortByKey rankLE counts).map Prod.fst
    if ranked = [] then List.range voices
    else
      let ranked :=
        if ranked.length < voices then
          ranked ++ (List.range 16).filter (fun ch => ch ∉ ranked)
        else ranked
      ranked.take voices

/-- Boolean comparator realizing the sort key
`lambda n: (n.start_tick, n.end_tick, n.note)` of
`select_monophonic_onsets`: lexicographic `≤` on the key triple, so the
accompanying insertion sort is stable exactly like Python `sorted`. -/
def noteKeyLE (a b : NoteEvent) : Bool :=
  decide (a.start_tick < b.start_tick) ||
    (decide (a.start_tick = b.start_tick) &&
      (decide (a.end_tick < b.end_tick) ||
        (decide (a.end_tick = b.end_tick) && decide (a.note ≤ b.note))))

/-- Python `dict[k] = v` for onset maps keyed by start tick: update in
place, else append in insertion order. -/
def onsetInsert (m : List (Nat × NoteEvent)) (k : Nat) (v : NoteEvent) :
    List (Nat × NoteEvent) :=
  match m with
  | [] => [(k, v)]
  | (k', v') :: rest =>
    if k' = k then (k, v) :: rest else (k', v') :: onsetInsert rest k v

/-- Models `select_monophonic_onsets`: process the notes in ascending
`(start_tick, end_tick, note)` order; the first note at a start tick is
recorded, and a later simultaneous note replaces it only under policy
`"high"` with a greater pitch or `"low"` with a smaller pitch (`"first"`
and any unknown policy never replace). -/
def select_monophonic_onsets (notes : List NoteEvent) (channel : Nat)
    (chord_policy : String) : List (Nat × NoteEvent) :=
  (sortByKey noteKeyLE notes).foldl
    (fun onsets note =>
      if note.channel ≠ channel then onsets
      else
        match alookup onsets note.start_tick with
        | none => onsets ++ [(note.start_tick, note)]
        | some existing =>
          let pick :=
            if chord_policy = "high" then decide (existing.note < note.note)
            else if chord_policy = "low" then decide (note.note < existing.note)
            else if chord_policy = "first" then false
            else false
          if pick then onsetInsert onsets note.start_tick note else onsets)
    []

/-- Lines 372-375 of `emit_basic`: one onset map per configured voice. -/
def onsetsPerVoice (song : MidiSong) (voices : Nat) (voice_channels : List Nat)
    (chord_policy : String) : List (List (Nat × NoteEvent)) :=
  (voice_channels.take voices).map fun ch =>
    select_monophonic_onsets song.notes ch chord_policy

/-- Lines 381-383 of `emit_basic`: `{tempo.tick: tempo.bpm}` with a tick-0
entry synthesized from the first tempo if absent.  On an empty tempo list
the source's `song.tempos[0]` raises `IndexError`; decoded songs always
carry at least one tempo, and the `headI` default never reaches any row. -/
def tempoByTick (song : MidiSong) : List (Nat × Nat) :=
  let d := song.tempos.foldl (fun m t => dictInsert m t.tick t.bpm) []
  if alookup d 0 = none then dictInsert d 0 song.tempos.headI.bpm else d

/-- Python `set.add`: a set of naturals as a duplicate-free list; a new
element is appended only if absent.  (The list order is irrelevant — the
set is only ever consumed through `sorted`.) -/
def setInsert (s : List Nat) (x : Nat) : List Nat :=
  if x ∈ s then s else s ++ [x]

/-- Python `set.update(xs)`: add every element of `xs`. -/
def setAddAll (s : List Nat) (xs : List Nat) : List Nat :=
  xs.foldl setInsert s

/-- Lines 377-394 of `emit_basic`: the `all_ticks` set — every voice's
onset ticks, plus (in `"track"` tempo mode) every tempo tick greater than
0, plus `end_tick + max(0, tail_ticks)` when the song's end tick is
positive. -/
def allTicksOf (song : MidiSong) (voices : Nat) (voice_channels : List Nat)
    (chord_policy tempo_mode : String) (tail_ticks : Nat) : List Nat :=
  let base := (onsetsPerVoice song voices voice_channels chord_policy).foldl
    (fun s o => setAddAll s (o.map Prod.fst)) []
  let withTempo :=
    if tempo_mode = "track" then
      setAddAll base (((tempoByTick song).map Prod.fst).filter fun t => 0 < t)
    else base
  if 0 < song.end_tick then setInsert withTempo (song.end_tick + max 0 tail_ticks)
  else withTempo

/-- Lines 396-398 of `emit_basic`: `timeline = sorted(all_ticks)` (the
ascending enumeration of the set), replaced by `[0]` when empty. -/
def timelineOf (song : MidiSong) (voices : Nat) (voice_channels : List Nat)
    (chord_policy tempo_mode : String) (tail_ticks : Nat) : List Nat :=
  let tl := List.insertionSort (· ≤ ·)
    (allTicksOf song voices voice_channels chord_policy tempo_mode tail_ticks)
  if tl = [] then [0] else tl

/-- Lines 403-420 of `emit_basic`: one flat data row
`[wait, tempo, f0, d0, ...]` for the given tick. -/
def rowAt (onsets : List (List (Nat × NoteEvent))) (tempoD : List (Nat × Nat))
    (tempo_mode : String) (tick prev : Nat) : List Int :=
  let wait : Int := max 0 ((tick : Int) - (prev : Int))
  let tempo : Int :=
    if tempo_mode = "track" ∧ (alookup tempoD tick).isSome ∧ tick ≠ 0 then
      ((alookup tempoD tick).getD 0 : Nat)
    else 0
  wait :: tempo ::
    (onsets.flatMap fun o =>
      match alookup o tick with
      | none => [0, 0]
      | some note =>
        [(midi_note_to_freq note.note : Int),
         (max 1 (note.end_tick - note.start_tick) : Nat)])

/-- The `for tick in timeline` loop of `emit_basic`, threading
`prev_tick` (initially 0). -/
def buildRows (onsets : List (List (Nat × NoteEvent))) (tempoD : List (Nat × Nat))
    (tempo_mode : String) : Nat → List Nat → List (List Int)
  | _, [] => []
  | prev, t :: ts =>
    rowAt onsets tempoD tempo_mode t prev :: buildRows onsets tempoD tempo_mode t ts

/-- Lines 422-426 of `emit_basic`: drop the trailing row when it is
entirely inert (zero wait, zero tempo, all voice slots zero). -/
def dropInertLast (events : List (List Int)) : List (List Int) :=
  match events.getLast? with
  | none => events
  | some last =>
    if last.getD 1 0 = 0 ∧ (last.drop 2).all (fun v => v = 0) ∧ last.getD 0 0 = 0 then
      events.dropLast
    else events

/-- Line 538 of `emit_basic`: `[-1, 0] + [0] * (voices * 2)`. -/
def sentinelRow (voices : Nat) : List Int :=
  -1 :: 0 :: List.replicate (voices * 2) 0

/-- The complete ordered row sequence `emit_basic` serializes into DATA
lines: the scheduled data rows followed by the sentinel row.
`bpm_override` influences only the generated BASIC header (initial BPM),
never a row, and is therefore not a parameter here. -/
def emitRows (song : MidiSong) (voices : Nat) (voice_channels : List Nat)
    (chord_policy tempo_mode : String) (tail_ticks : Nat) : List (List Int) :=
  let onsets := onsetsPerVoice song voices voice_channels chord_policy
  let tempoD := tempoByTick song
  let tl := timelineOf song voices voice_channels chord_policy tempo_mode tail_ticks
  dropInertLast (buildRows onsets tempoD tempo_mode 0 tl) ++ [sentinelRow voices]

/-! ### Concrete byte buffers used by the claim theorems -/

/-- The end-to-end scenario of the spec (§8): format 0, one track,
resolution 480; tempo 500000 µs (120 BPM) at tick 0, time signature 4/4,
note 60 on channel 0 from tick 0 to 480, note 64 from tick 480 to 960,
then end-of-track. -/
def endToEndBuf : List Nat :=
  [0x4D, 0x54, 0x68, 0x64, 0, 0, 0, 6, 0, 0, 0, 1, 0x01, 0xE0,
   0x4D, 0x54, 0x72, 0x6B, 0, 0, 0, 37,
   0x00, 0xFF, 0x51, 0x03, 0x07, 0xA1, 0x20,
   0x00, 0xFF, 0x58, 0x04, 0x04, 0x02, 0x18, 0x08,
   0x00, 0x90, 0x3C, 0x64,
   0x83, 0x60, 0x80, 0x3C, 0x00,
   0x00, 0x90, 0x40, 0x64,
   0x83, 0x60, 0x80, 0x40, 0x00,
   0x00, 0xFF, 0x2F, 0x00]

/-- The note-stacking scenario of the spec (§8): channel 0, pitch 60,
note-on at tick 0, note-on again at tick 5, note-offs at ticks 8 and 12. -/
def retriggerBuf : List Nat :=
  [0x4D, 0x54, 0x68, 0x64, 0, 0, 0, 6, 0, 0, 0, 1, 0x01, 0xE0,
   0x4D, 0x54, 0x72, 0x6B, 0, 0, 0, 16,
   0x00, 0x90, 0x3C, 0x64,
   0x05, 0x90, 0x3C, 0x64,
   0x03, 0x80, 0x3C, 0x00,
   0x04, 0x80, 0x3C, 0x00]

/-- A buffer whose single track chunk declares a byte length of 100 while
only 8 body bytes remain: note-on at tick 0, note-off at tick 96
(delta 0x60). -/
def overlongTrackBuf : List Nat :=
  [0x4D, 0x54, 0x68, 0x64, 0, 0, 0, 6, 0, 0, 0, 1, 0x01, 0xE0,
   0x4D, 0x54, 0x72, 0x6B, 0, 0, 0, 100,
   0x00, 0x90, 0x3C, 0x64,
   0x60, 0x80, 0x3C, 0x00]

/-- A buffer whose tempo meta event declares a 5-byte payload while only
3 bytes remain in the track: the sliced payload still has length 3, so the
tempo (1000000 µs = 60 BPM) is decoded from silently truncated data. -/
def overlongMetaBuf : List Nat :=
  [0x4D, 0x54, 0x68, 0x64, 0, 0, 0, 6, 0, 0, 0, 1, 0x01, 0xE0,
   0x4D, 0x54, 0x72, 0x6B, 0, 0, 0, 7,
   0x00, 0xFF, 0x51, 0x05, 0x0F, 0x42, 0x40]

/-- A buffer whose time-signature meta event carries a numerator byte of 0
and a denominator exponent of 2 (payload `[0, 2]`). -/
def zeroNumeratorBuf : List Nat :=
  [0x4D, 0x54, 0x68, 0x64, 0, 0, 0, 6, 0, 0, 0, 1, 0x01, 0xE0,
   0x4D, 0x54, 0x72, 0x6B, 0, 0, 0, 6,
   0x00, 0xFF, 0x58, 0x02, 0x00, 0x02]

/-- A buffer whose tempo meta event carries the 3-byte payload `[0,0,0]`,
i.e. 0 microseconds per quarter note. -/
def zeroTempoBuf : List Nat :=
  [0x4D, 0x54, 0x68, 0x64, 0, 0, 0, 6, 0, 0, 0, 1, 0x01, 0xE0,
   0x4D, 0x54, 0x72, 0x6B, 0, 0, 0, 7,
   0x00, 0xFF, 0x51, 0x03, 0x00, 0x00, 0x00]

/-! ### Theorems -/

/-- Internal validation of the frequency embedding: the A-note octaves are
exact powers of two times 440 (where the float computation is exact), and
the extreme MIDI notes match the standard equal-tempered table. -/
theorem midi_note_to_freq_anchors :
    midi_note_to_freq 69 = 440 ∧ midi_note_to_freq 81 = 880 ∧
    midi_note_to_freq 57 = 220 ∧ midi_note_to_freq 45 = 110 ∧
    midi_note_to_freq 93 = 1760 ∧ midi_note_to_freq 60 = 262 ∧
    midi_note_to_freq 64 = 330 ∧ midi_note_to_freq 0 = 8 ∧
    midi_note_to_freq 127 = 12544 := by
  decide

/-- A successful VLQ read consumes at least one byte. -/
theorem read_vlq_length {v d : Nat} {l r : List Nat}
    (h : read_vlq v l = .ok (d, r)) : r.length < l.length := by
  induction l generalizing v with
  | nil => simp [read_vlq] at h
  | cons b rest ih =>
    rw [read_vlq] at h
    split at h
    · cases h
      simp
    · have := ih h
      simp only [List.length_cons]
      omega

/-- A successful status determination keeps at most the status byte plus
the remaining data bytes. -/
theorem statusOf_length {b status : Nat} {rest2 drest : List Nat} {running r2 : Option Nat}
    (h : statusOf b rest2 running = some (status, drest, r2)) :
    drest.length ≤ rest2.length + 1 := by
  unfold statusOf at h
  split at h
  · cases h
    simp
  · split at h
    · cases h
    · cases h
      simp

/-- Every continuing iteration of the track event loop consumes at least
one byte of the track body. -/
theorem trackStep_next_length {rest : List Nat} {tick : Nat} {running : Option Nat}
    {active : ActiveMap} {acc : TrackAcc} {rest' : List Nat} {t : Nat}
    {r : Option Nat} {a : ActiveMap} {c : TrackAcc}
    (h : trackStep rest tick running active acc = .next rest' t r a c) :
    rest'.length < rest.length := by
  unfold trackStep at h
  split at h
  · cases h
  · split at h
    · cases h
    · rename_i rfull b0 rtail vres delta rest1 heq
      have hv1 : rest1.length < (b0 :: rtail).length := read_vlq_length heq
      split at h
      · cases h
      · rename_i b rest2
        simp only [List.length_cons] at hv1
        split at h
        · cases h
        · rename_i status drest running2 heq2
          have hd : drest.length ≤ rest2.length + 1 := statusOf_length heq2
          split at h
          · split at h
            · cases h
            · rename_i meta_type mrest
              split at h
              · cases h
              · rename_i vres2 meta_len mrest2 heq3
                have hv2 : mrest2.length < mrest.length := read_vlq_length heq3
                simp only [List.length_cons] at hd
                dsimp only at h
                repeat' split at h
                all_goals cases h
                all_goals simp only [List.length_drop, List.length_cons]
                all_goals omega
          · split at h
            · split at h
              · cases h
              · rename_i vres2 sysex_len srest heq4
                have hv2 : srest.length < drest.length := read_vlq_length heq4
                cases h
                simp only [List.length_drop, List.length_cons]
                omega
            · dsimp only at h
              repeat' split at h
              all_goals cases h
              all_goals try simp only [List.length_cons] at hd
              all_goals simp only [List.length_cons]
              all_goals omega

/-- With enough fuel for the remaining bytes, the fuel parameter does not
influence the track event loop: the out-of-fuel branch is unreachable. -/
theorem trackLoopF_fuel_irrelevant (fuel1 : Nat) :
    ∀ (fuel2 : Nat) (rest : List Nat) (tick : Nat) (running : Option Nat)
      (active : ActiveMap) (acc : TrackAcc),
      rest.length < fuel1 → rest.length < fuel2 →
      trackLoopF fuel1 rest tick running active acc
        = trackLoopF fuel2 rest tick running active acc := by
  induction fuel1 with
  | zero => intro _ _ _ _ _ _ h1 _; omega
  | succ f1 ih =>
    intro fuel2 rest tick running active acc h1 h2
    obtain ⟨f2, rfl⟩ : ∃ f2, fuel2 = f2 + 1 := ⟨fuel2 - 1, by omega⟩
    simp only [trackLoopF]
    cases hs : trackStep rest tick running active acc with
    | done t a c => rfl
    | err e => rfl
    | next rest' t r a c =>
      have hl := trackStep_next_length hs
      exact ih f2 rest' t r a c (by omega) (by omega)

/-- C1 counterexample: on the spec's own end-to-end input (voice count 1,
fixed tempo, automatic channel selection) the pipeline does not produce
the two data rows `(0,0,(262,480))`, `(480,0,(294,480))` plus sentinel
claimed by the spec. -/
theorem endToEnd_rows_ne_spec :
    ((parse_midi endToEndBuf).map fun s =>
        emitRows s 1 (choose_voice_channels s.notes 1 none) "high" "fixed" 0)
      ≠ .ok [[0, 0, 262, 480], [480, 0, 294, 480], [-1, 0, 0, 0]] := by
  decide

/-- C1 (corrected): the end-to-end scenario produces three data rows —
`(0,0,(262,480))`, `(480,0,(330,480))` (pitch 64 is 330 Hz, not 294), and
a trailing pure-wait row `(480,0,(0,0))` at the closing tick 960 — followed
by the sentinel row. -/
theorem endToEnd_rows :
    ((parse_midi endToEndBuf).map fun s =>
        emitRows s 1 (choose_voice_channels s.notes 1 none) "high" "fixed" 0)
      = .ok [[0, 0, 262, 480], [480, 0, 330, 480], [480, 0, 0, 0], [-1, 0, 0, 0]] := by
  decide

/-- C2 counterexample: on the retrigger scenario the decoder emits the
NoteEvent pairs `(5,8)` then `(0,12)`; the pair `(0,8)` claimed by the
spec is not among them. -/
theorem retrigger_pairs_ne_spec :
    ((parse_midi retriggerBuf).map fun s =>
        s.notes.map fun n => (n.start_tick, n.end_tick))
      = .ok [(5, 8), (0, 12)] ∧
    ((0, 8) : Nat × Nat) ∉ [((5 : Nat), (8 : Nat)), (0, 12)] := by
  decide

/-- C2 (corrected): with note-ons at ticks 0 and 5 and note-offs at ticks
8 and 12 on one channel/pitch, last-opened-first-closed popping pairs the
tick-8 off with the tick-5 on and the tick-12 off with the tick-0 on, so
the decoder emits the two NoteEvents `(5,8)` and `(0,12)`. -/
theorem retrigger_notes :
    parse_midi retriggerBuf
      = .ok ⟨480, [⟨5, 8, 0, 60, 100⟩, ⟨0, 12, 0, 60, 100⟩], [⟨0, 120⟩], ⟨4, 4⟩, 12⟩ := by
  decide

/-- C3 counterexample: a track chunk declaring 100 body bytes with only 8
remaining decodes successfully (the slice silently clamps), emitting the
note contained in the truncated body instead of failing with a
truncated-stream error. -/
theorem overlongTrack_decodes_ok :
    parse_midi overlongTrackBuf
      = .ok ⟨480, [⟨0, 96, 0, 60, 100⟩], [⟨0, 120⟩], ⟨4, 4⟩, 96⟩ := by
  decide

/-- C3 (corrected): declared lengths that exceed the remaining bytes are
silently clamped by slicing, not rejected: the over-long track chunk above
decodes successfully, and a tempo meta event declaring a 5-byte payload
with only 3 bytes left still decodes the truncated 3-byte payload as a
60 BPM tempo event.  Only unterminated VLQs, a missing meta type byte and
missing channel-event data bytes raise truncated-stream errors. -/
theorem overlong_lengths_silently_truncated :
    parse_midi overlongMetaBuf = .ok ⟨480, [], [⟨0, 60⟩], ⟨4, 4⟩, 0⟩ ∧
    parse_midi overlongTrackBuf
      = .ok ⟨480, [⟨0, 96, 0, 60, 100⟩], [⟨0, 120⟩], ⟨4, 4⟩, 96⟩ := by
  decide

/-- C4 counterexample: the explicit channel selection "2,2" normalizes to
`[1,1]` without any error, and the selector returns `[1,1]`, which is not
pairwise distinct. -/
theorem duplicate_channels_not_rejected :
    parse_channel_list (some "2,2") = .ok (some [1, 1]) ∧
    choose_voice_channels [] 2 (some [1, 1]) = [1, 1] ∧
    ¬ ([1, 1] : List Nat).Nodup := by
  refine ⟨by decide, by decide, by decide⟩

/-- C4 (corrected): an explicit channel selection containing duplicates is
not rejected: `parse_channel_list` validates only integer syntax and the
1-16 range, and `choose_voice_channels` returns the duplicated channels
unchanged (still exactly N of them). -/
theorem duplicate_channels_propagated :
    (choose_voice_channels [] 2 (some [1, 1])).length = 2 ∧
    choose_voice_channels [] 2 (some [1, 1]) = [1, 1] ∧
    parse_channel_list (some "2,2") = .ok (some [1, 1]) := by
  refine ⟨by decide, by decide, by decide⟩

/-- C5 counterexample: a time-signature meta event with numerator byte 0
and denominator exponent 2 decodes to the time signature 1/4, not to the
4/4 default claimed by the spec. -/
theorem zero_numerator_not_4_4 :
    ((parse_midi zeroNumeratorBuf).map fun s => s.time_signature) = .ok ⟨1, 4⟩ ∧
    (⟨1, 4⟩ : TimeSignature) ≠ ⟨4, 4⟩ := by
  decide

/-- C5 (corrected): a numerator byte of 0 is clamped to 1 (not defaulted
to 4/4); the denominator `2 ^ payload[1]` is always positive, so a 0x58
meta event with a 0 numerator byte always sets the signature to
`(1, 2 ^ payload[1])` — on the concrete buffer, 1/4. -/
theorem meta58_clamps_numerator :
    (∀ (d : Nat) (tail : List Nat) (ts : TimeSignature),
        meta58 (0 :: d :: tail) ts = ⟨1, 2 ^ d⟩) ∧
    ((parse_midi zeroNumeratorBuf).map fun s => s.time_signature) = .ok ⟨1, 4⟩ := by
  constructor
  · intro d tail ts
    have h : 0 < (2 : ℕ) ^ d := pow_pos (by norm_num) d
    simp [meta58, h]
  · decide

/-- C6 (confirmed): for a chord of three simultaneous onsets at tick `T`
(shared end tick `E`, any channel and velocities) with pitches 60, 64 and
67, policy `"high"` selects pitch 67, `"low"` selects 60, and `"first"`
selects 60 — the first note in the ascending `(start, end, pitch)`
processing order, which `"first"` never replaces. -/
theorem chord_policy_winners (T E c v1 v2 v3 : Nat) :
    alookup (select_monophonic_onsets
        [⟨T, E, c, 67, v3⟩, ⟨T, E, c, 60, v1⟩, ⟨T, E, c, 64, v2⟩] c "high") T
      = some ⟨T, E, c, 67, v3⟩ ∧
    alookup (select_monophonic_onsets
        [⟨T, E, c, 67, v3⟩, ⟨T, E, c, 60, v1⟩, ⟨T, E, c, 64, v2⟩] c "low") T
      = some ⟨T, E, c, 60, v1⟩ ∧
    alookup (select_monophonic_onsets
        [⟨T, E, c, 67, v3⟩, ⟨T, E, c, 60, v1⟩, ⟨T, E, c, 64, v2⟩] c "first") T
      = some ⟨T, E, c, 60, v1⟩ := by
  refine ⟨?_, ?_, ?_⟩ <;>
    simp [select_monophonic_onsets, sortByKey, insertByKey, noteKeyLE, alookup, onsetInsert]

/-- Inserting into the set representation preserves freedom from
duplicates. -/
theorem setInsert_nodup {s : List Nat} (h : s.Nodup) (x : Nat) : (setInsert s x).Nodup := by
  unfold setInsert
  split
  · exact h
  · rename_i hx
    simp [List.nodup_append, h, hx]

/-- Adding any batch of elements preserves freedom from duplicates. -/
theorem setAddAll_nodup (xs : List Nat) :
    ∀ {s : List Nat}, s.Nodup → (setAddAll s xs).Nodup := by
  induction xs with
  | nil => intro s h; exact h
  | cons x xs ih =>
    intro s h
    simpa [setAddAll] using ih (setInsert_nodup h x)

/-- Folding batch additions over any list of onset maps preserves freedom
from duplicates. -/
theorem foldl_setAddAll_nodup {β : Type} (f : β → List Nat) (os : List β) :
    ∀ {s : List Nat}, s.Nodup →
      (os.foldl (fun s o => setAddAll s (f o)) s).Nodup := by
  induction os with
  | nil => intro s h; exact h
  | cons o os ih =>
    intro s h
    simpa using ih (setAddAll_nodup (f o) h)

/-- The `all_ticks` set of the scheduler holds no duplicate ticks. -/
theorem allTicks_nodup (song : MidiSong) (voices : Nat) (voice_channels : List Nat)
    (chord_policy tempo_mode : String) (tail_ticks : Nat) :
    (allTicksOf song voices voice_channels chord_policy tempo_mode tail_ticks).Nodup := by
  have h1 := foldl_setAddAll_nodup (fun (o : List (Nat × NoteEvent)) => o.map Prod.fst)
    (onsetsPerVoice song voices voice_channels chord_policy) List.nodup_nil
  simp only [allTicksOf]
  split
  · split
    · exact setInsert_nodup (setAddAll_nodup _ h1) _
    · exact setInsert_nodup h1 _
  · split
    · exact setAddAll_nodup _ h1
    · exact h1

/-- C7 (confirmed): the timeline of ticks the scheduler materializes into
rows is strictly ascending — sorted with no duplicate ticks — for every
decoded song and every configuration of voices, channel mapping, chord
policy, tempo mode and tail ticks. -/
theorem timeline_strictly_ascending (song : MidiSong) (voices : Nat)
    (voice_channels : List Nat) (chord_policy tempo_mode : String) (tail_ticks : Nat) :
    List.Sorted (· < ·)
      (timelineOf song voices voice_channels chord_policy tempo_mode tail_ticks) := by
  have hsorted := List.sorted_insertionSort (α := ℕ) (· ≤ ·)
    (allTicksOf song voices voice_channels chord_policy tempo_mode tail_ticks)
  have hnodup : (List.insertionSort (· ≤ ·)
      (allTicksOf song voices voice_channels chord_policy tempo_mode tail_ticks)).Nodup :=
    (List.perm_insertionSort (· ≤ ·) _).nodup_iff.mpr
      (allTicks_nodup song voices voice_channels chord_policy tempo_mode tail_ticks)
  simp only [timelineOf]
  split
  · simp
  · exact hsorted.lt_of_le hnodup

/-- Every data row the scheduler builds starts with a non-negative wait
field (`max(0, tick - prev_tick)`). -/
theorem buildRows_head_nonneg (onsets : List (List (Nat × NoteEvent)))
    (tempoD : List (Nat × Nat)) (tempo_mode : String) (ts : List Nat) :
    ∀ (prev : Nat), ∀ r ∈ buildRows onsets tempoD tempo_mode prev ts, 0 ≤ r.headI := by
  induction ts with
  | nil => intro prev r hr; simp [buildRows] at hr
  | cons t ts ih =>
    intro prev r hr
    simp only [buildRows, List.mem_cons] at hr
    rcases hr with h | h
    · subst h
      simp only [rowAt, List.headI]
      exact le_max_left _ _
    · exact ih t r h

/-- Dropping the trailing inert row keeps a sublist of the rows. -/
theorem dropInertLast_subset (l : List (List Int)) : dropInertLast l ⊆ l := by
  unfold dropInertLast
  split
  · exact fun a h => h
  · split
    · rw [List.dropLast_eq_take]
      exact List.take_subset _ _
    · exact fun a h => h

/-- C8 (confirmed): the emitted row sequence always ends with exactly one
sentinel row (wait −1, every other field 0), the sentinel is the last row,
and every data row before it has a non-negative wait (never −1). -/
theorem rows_end_with_sentinel (song : MidiSong) (voices : Nat)
    (voice_channels : List Nat) (chord_policy tempo_mode : String) (tail_ticks : Nat) :
    (emitRows song voices voice_channels chord_policy tempo_mode tail_ticks).getLast?
        = some (sentinelRow voices) ∧
    ∀ r ∈ (emitRows song voices voice_channels chord_policy tempo_mode tail_ticks).dropLast,
      0 ≤ r.headI ∧ r.headI ≠ -1 := by
  constructor
  · simp only [emitRows]
    exact List.getLast?_concat _
  · intro r hr
    simp only [emitRows, List.dropLast_concat] at hr
    have h0 := buildRows_head_nonneg _ _ tempo_mode _ 0 r (dropInertLast_subset _ hr)
    exact ⟨h0, by omega⟩

/-- C9 (confirmed): a note-off (or velocity-0 note-on) for a channel/pitch
key with no open note is silently ignored — the active map and the note
list are returned unchanged, and no error is possible (the handler is
total). -/
theorem unmatched_note_off_ignored (event_type channel data1 data2 tick : Nat)
    (active : ActiveMap) (notes : List NoteEvent)
    (hoff : event_type = 0x80 ∨ (event_type = 0x90 ∧ data2 = 0))
    (hempty : alGet active (channel, data1) = none ∨ alGet active (channel, data1) = some []) :
    handleNote event_type channel data1 data2 tick active notes = (active, notes) := by
  have h1 : ¬(event_type = 0x90 ∧ 0 < data2) := by
    rcases hoff with h | ⟨h, h2⟩
    · simp [h]
    · simp [h, h2]
  rw [handleNote, if_neg h1, if_pos hoff]
  rcases hempty with h | h <;> rw [h]

/-- C9 witness: an unmatched note-off on key (0, 60) against an empty
active map leaves everything unchanged. -/
theorem unmatched_note_off_ignored_witness :
    ((0x80 : Nat) = 0x80 ∨ ((0x80 : Nat) = 0x90 ∧ (0 : Nat) = 0)) ∧
    (alGet ([] : ActiveMap) (0, 60) = none ∨ alGet ([] : ActiveMap) (0, 60) = some []) ∧
    handleNote 0x80 0 60 0 7 [] [] = ([], []) :=
  ⟨Or.inl rfl, Or.inl rfl,
    unmatched_note_off_ignored 0x80 0 60 0 7 [] [] (Or.inl rfl) (Or.inl rfl)⟩

/-- C10 (confirmed): a tempo meta event whose decoded
microseconds-per-quarter value is 0 emits no TempoEvent and raises no
error — the guarded branch returns the tempo list unchanged, so the BPM
division is never evaluated; a full decode of a buffer containing exactly
such an event succeeds with only the synthesized default tempo. -/
theorem zero_tempo_guarded (tick : Nat) (meta_data : List Nat) (tempos : List TempoEvent)
    (h : metaUs meta_data = 0) :
    meta51 tick meta_data tempos = tempos ∧
    parse_midi zeroTempoBuf = .ok ⟨480, [], [⟨0, 120⟩], ⟨4, 4⟩, 0⟩ := by
  constructor
  · simp [meta51, h]
  · decide

/-- C10 witness: the all-zero 3-byte payload decodes to 0 µs and leaves an
empty tempo list empty. -/
theorem zero_tempo_guarded_witness :
    metaUs [0, 0, 0] = 0 ∧ meta51 5 [0, 0, 0] [] = [] :=
  ⟨rfl, (zero_tempo_guarded 5 [0, 0, 0] [] rfl).1⟩

end NovaVM
